import Mathlib

/-!
Verification development for the `sqlweld` template build pipeline
(`src/lib.rs` of dimfeld/sqlweld).

The pipeline is embedded shallowly:

* Filesystem paths are represented as lists of components (`Path`), taken
  relative to the input root.  The source strips the input-root prefix from
  every discovered path right away (`lib.rs:160`), and the absolute prefix is
  common to all files of a run, so the relative representation is faithful:
  suffix matching and output placement are insensitive to the common prefix.
* External collaborators (the tera engine, the formatter subprocess, the
  filesystem reads/writes performed by the OS) are oracles collected in `Env`.
  They are deterministic functions, matching the fact that a single run uses
  one engine instance, one context and one formatter command.
* Rust `u8`/exit codes stay abstract (`Int`); no machine arithmetic matters.
-/

namespace Sqlweld

/-- A filesystem path as a list of components, relative to the input root.
Real OS path components never contain the separator character. -/
abbrev Path := List String

/-- Rust `str::ends_with` (`lib.rs:145-146`, `lib.rs:103`): byte-suffix test.
For valid UTF-8 needles a byte-level suffix is exactly a char-level suffix
(UTF-8 is self-synchronizing), so the char-list model is faithful. -/
def strEndsWith (s suffix : String) : Bool :=
  suffix.data.isSuffixOf s.data

/-- Rust `str::strip_suffix` (`lib.rs:169`, `lib.rs:176`, `lib.rs:222`):
returns the string with `suffix` removed when it is a suffix, else `none`. -/
def stripSuffixQ (s suffix : String) : Option String :=
  if strEndsWith s suffix then some ⟨s.data.take (s.data.length - suffix.data.length)⟩
  else none

/-- Total version of `stripSuffixQ`; the classifier in the source unwraps the
option (`lib.rs:170`, `lib.rs:177`).  The `none` branch is unreachable for
walker-produced paths (see `strip_succeeds_of_role`), where Rust would panic. -/
def stripSuffixD (s suffix : String) : String :=
  (stripSuffixQ s suffix).getD s

/-- Rust `Path::display` / `to_string_lossy` with the usual separator. -/
def pathStr : Path → String
  | [] => ""
  | [c] => c
  | c :: rest => c ++ "/" ++ pathStr rest

/-- Rust `Path::file_name` (`lib.rs:166`, `lib.rs:219`): the last component.
The source unwraps it in the classifier and defaults it to `""` in the output
stage (`unwrap_or_default`, `lib.rs:221`); we use the defaulting form. -/
def fileNameD (p : Path) : String :=
  p.getLast?.getD ""

/-- The role of a discovered file (`lib.rs:133-138`). -/
inductive TemplateType where
  | Macro
  | Partial
  | Normal
deriving DecidableEq, Repr

/-- Source constant `MACRO_SUFFIX` (`lib.rs:140`). -/
def MACRO_SUFFIX : String := ".macros.sql.tera"

/-- Source constant `PARTIAL_SUFFIX` (`lib.rs:141`). -/
def PARTIAL_SUFFIX : String := ".partial.sql.tera"

/-- The generic template suffix required by the walker filter (`lib.rs:103`)
and stripped in the output stage (`lib.rs:222`). -/
def TEMPLATE_SUFFIX : String := ".sql.tera"

/-- Source function `template_type` (`lib.rs:142-149`): role by suffix of the path string,
macro suffix first, then partial suffix, then normal as the fallback. -/
def templateType (p : String) : TemplateType :=
  if strEndsWith p MACRO_SUFFIX then TemplateType.Macro
  else if strEndsWith p PARTIAL_SUFFIX then TemplateType.Partial
  else TemplateType.Normal

/-- The logical template name derived in the classification loop
(`lib.rs:162-179`): the relative path string for normal templates, the
filename with the role suffix stripped for partials and macro files. -/
def derivedName (p : Path) : String :=
  match templateType (pathStr p) with
  | TemplateType.Normal => pathStr p
  | TemplateType.Macro => stripSuffixD (fileNameD p) MACRO_SUFFIX
  | TemplateType.Partial => stripSuffixD (fileNameD p) PARTIAL_SUFFIX

/-- The role decision as the spec words it: "decide its Role by checking
filename suffixes in priority order: macro suffix, then partial suffix, then
normal as the fallback".  Spec-side definition, compared against the
source's `templateType` (which tests the whole path string) in claim C6. -/
def roleByFilename (p : Path) : TemplateType :=
  if strEndsWith (fileNameD p) MACRO_SUFFIX then TemplateType.Macro
  else if strEndsWith (fileNameD p) PARTIAL_SUFFIX then TemplateType.Partial
  else TemplateType.Normal

/-- State accumulated by the classification loop (`lib.rs:152-153`):
the partial registry (`HashMap<String, PathBuf>`, here an association list;
the map is only queried through `get`, so the representation is faithful)
and the pending template list (`Vec<(PathBuf, Option<String>)>`). -/
structure ClassifyState where
  partials : List (String × Path)
  templates : List (Path × String)
deriving DecidableEq, Repr

/-- The classification loop `for path in file_rx` (`lib.rs:155-192`).
A duplicate partial/macro name aborts with the pair
(existing registered path, newly discovered path) (`lib.rs:182-186`). -/
def classifyFrom (st : ClassifyState) : List Path → Except (Path × Path) ClassifyState
  | [] => Except.ok st
  | p :: rest =>
    if templateType (pathStr p) = TemplateType.Normal then
      classifyFrom ⟨st.partials, st.templates ++ [(p, derivedName p)]⟩ rest
    else
      match st.partials.find? (fun e => e.1 == derivedName p) with
      | some e => Except.error (e.2, p)
      | none =>
        classifyFrom ⟨st.partials ++ [(derivedName p, p)], st.templates ++ [(p, derivedName p)]⟩ rest

/-- The error kinds of the pipeline (`lib.rs:64-78`). -/
inductive Error where
  | ReadTemplate
  | Render
  | WriteResult
  | InternalError
  | DuplicatePartial
  | Formatter
deriving DecidableEq, Repr

/-- Model of an `error_stack::Report`: the current context plus the printable
attachments added with `attach_printable`. -/
structure ErrReport where
  ctx : Error
  attachments : List String
deriving DecidableEq, Repr

/-- Rust `Itertools::join` with a separator, as used for the header lines
(`lib.rs:248`, separator is a newline). -/
def joinLines : List String → String
  | [] => ""
  | [x] => x
  | x :: rest => x ++ "\n" ++ joinLines rest

/-- Rust `str::split` with a char-predicate pattern (`lib.rs:244`), on the
char list: split at every matching char, keeping empty fragments between
adjacent separators and at the ends. -/
def splitOnPred (p : Char → Bool) : List Char → List (List Char)
  | [] => [[]]
  | c :: rest =>
    if p c then [] :: splitOnPred p rest
    else
      match splitOnPred p rest with
      | [] => [[c]]
      | g :: gs => (c :: g) :: gs

/-- Rust `str::split` lifted back to strings. -/
def strSplit (s : String) (p : Char → Bool) : List String :=
  (splitOnPred p s.data).map fun l => ⟨l⟩

/-- Drop leading whitespace characters. -/
def trimLeftChars : List Char → List Char
  | [] => []
  | c :: rest => if c.isWhitespace then trimLeftChars rest else c :: rest

/-- Rust `str::trim` (`lib.rs:245`): strip whitespace from both ends (the
ASCII whitespace set; the Unicode-only whitespace code points Rust also
strips never appear in the strings of interest). -/
def strTrim (s : String) : String :=
  ⟨(trimLeftChars ((trimLeftChars s.data).reverse)).reverse⟩

/-- The surviving header lines (`lib.rs:243-247`): split the header text on
any newline character, trim each line, drop empty lines, prefix each
surviving line with the SQL line-comment marker. -/
def survivingLines (header : String) : List String :=
  (((strSplit header fun c => c == '\n' || c == '\r').map strTrim).filter
    fun s => !(s == "")).map fun s => "-- " ++ s

/-- The `header_lines` block (`lib.rs:243-248`): the joined header lines. -/
def headerLines (header : String) : String :=
  joinLines (survivingLines header)

/-- Header prepending (`lib.rs:250-254`): prepend the header block and a blank separator line
unless the block is empty. -/
def withHeader (header body : String) : String :=
  if headerLines header = "" then body else headerLines header ++ "\n\n" ++ body

/-- Observable behaviour of one formatter subprocess invocation
(`lib.rs:256-289`), as reported by the OS:
whether `spawn` succeeded, whether `wait_with_output` succeeded, whether the
writer thread's `write_all` to the child's stdin succeeded, the exit status
(`status.success()` and `status.code().unwrap_or(0)`), the captured stdout
(`some` text when it is valid UTF-8, `none` otherwise) and the captured
stderr decoded with `unwrap_or_default`. -/
structure FmtRun where
  spawnOk : Bool
  waitOk : Bool
  writeOk : Bool
  success : Bool
  exitCode : Int
  stdout : Option String
  stderr : String
deriving DecidableEq, Repr

/-- The formatter stage (`lib.rs:256-289`) for one subprocess run.  Failures
surface in source order: `spawn` (`lib.rs:261-262`), `wait_with_output`
(`lib.rs:271-273`), the joined writer thread (`lib.rs:275-278`), then a
non-success exit status with the exit code and stderr attached
(`lib.rs:280-285`), then UTF-8 decoding of stdout (`lib.rs:289`).
`stdin.take().ok_or(...)` (`lib.rs:264`) never fails for a piped stdin. -/
def runFormatter (r : FmtRun) : Except ErrReport String :=
  if !r.spawnOk then Except.error ⟨Error.Formatter, []⟩
  else if !r.waitOk then Except.error ⟨Error.Formatter, []⟩
  else if !r.writeOk then Except.error ⟨Error.Formatter, []⟩
  else if !r.success then
    Except.error ⟨Error.Formatter,
      ["Formatter exited with code " ++ toString r.exitCode, r.stderr]⟩
  else
    match r.stdout with
    | some s => Except.ok s
    | none => Except.error ⟨Error.Formatter, []⟩

/-- Source function `atomic_write_file` (`lib.rs:320-325`): create a named
temporary file - `tempfile::NamedTempFile::new()` places it in the system
temporary directory, not next to the destination; see `atomicTempPath` for
the location model - write the contents to it, rename it into place; each
step is fallible OS I/O, and the attempt succeeds only when every step
succeeds. -/
def atomic_write_file (tempCreateOk tempWriteOk persistOk : Bool) : Bool :=
  tempCreateOk && tempWriteOk && persistOk

/-- The outcome of `write_file`: whether the direct (non-atomic) fallback
write was attempted, and the final result (`none` = success). -/
structure WriteTrace where
  directAttempted : Bool
  result : Option ErrReport
deriving DecidableEq, Repr

/-- Source function `write_file` (`lib.rs:327-337`): try the atomic write; on success return
immediately, otherwise fall back to `std::fs::write`, surfacing a
`WriteResult` error with the destination attached only when the fallback
also fails. -/
def write_file (atomicOk directOk : Bool) (dest : String) : WriteTrace :=
  if atomicOk then ⟨false, none⟩
  else if directOk then ⟨true, none⟩
  else ⟨true, some ⟨Error.WriteResult, [dest]⟩⟩

/-- The run configuration (`Options`, `lib.rs:17-62`) as far as the pipeline
consumes it.  `input` is baked into the relative-path representation,
`context` into the render oracle; `verbose` and `print_rerun_if_changed`
only print, and `check_ignored_dirs` only affects the walker filter, which
is upstream of the embedded path list. -/
structure Options where
  output : Option Path
  header : Option String
  extension : Option String
  alwaysWrite : Bool
  formatter : Option String
deriving DecidableEq, Repr

/-- The external collaborators of one run, as deterministic oracles:
`render name` is `tera.render(&name, &context)` with the tera error message
abstracted; `compileOk` is whether `tera.add_template_files` accepts the
registered sources; `runFmt` maps the text fed to the formatter's stdin to
the observed subprocess behaviour; `readExisting` is
`std::fs::read_to_string` at an output path (`none` covers a missing file,
an I/O failure and invalid UTF-8 alike); the remaining fields are the
success of the individual write syscalls for a given destination/content;
`tempDir` is the system temporary directory (`env::temp_dir()`) in which
`tempfile::NamedTempFile::new()` creates the atomic attempt's temporary
file, and `tempName` the random file name it picks for a write. -/
structure Env where
  render : String → Except String String
  compileOk : List (Path × String) → Bool
  runFmt : String → FmtRun
  readExisting : Path → Option String
  tempDir : Path
  tempName : Path → String → String
  tempCreateOk : Path → String → Bool
  tempWriteOk : Path → String → Bool
  persistOk : Path → String → Bool
  directOk : Path → String → Bool

/-- Output path derivation (`lib.rs:232-236`): place the file named `fname`
in the explicit output root when one is given (flattened to the filename),
else beside the source file (`Path::with_file_name`). -/
def outputPath (output : Option Path) (p : Path) (fname : String) : Path :=
  match output with
  | some root => root ++ [fname]
  | none => p.dropLast ++ [fname]

/-- The per-template write decision (`lib.rs:312`, `lib.rs:320-337`)
composed from the individual syscall outcomes. -/
def writeOutcome (env : Env) (dest : Path) (content : String) : WriteTrace :=
  write_file
    (atomic_write_file (env.tempCreateOk dest content) (env.tempWriteOk dest content)
      (env.persistOk dest content))
    (env.directOk dest content) (pathStr dest)

/-- The path of the temporary file used by the atomic attempt for a given
write: `tempfile::NamedTempFile::new()` (`lib.rs:321`) creates it in the
system temporary directory.  The call receives no information about the
destination, so the directory component never depends on it (the crate's
`NamedTempFile::new_in` would be the same-directory variant; the source
does not call it). -/
def atomicTempPath (env : Env) (dest : Path) (content : String) : Path :=
  env.tempDir ++ [env.tempName dest content]

/-- The pure part of the per-template output stage (`lib.rs:211-292`):
render (`lib.rs:213-216`), derive the base name (`lib.rs:218-229`, an
`InternalError` when the filename does not end in the template suffix),
derive the output path (`lib.rs:231-236`), prepend the header
(`lib.rs:238-254`, default text included), then optionally run the
formatter (`lib.rs:256-292`).  Returns the destination and the final
content to be compared and written. -/
def computeOutput (opts : Options) (env : Env) (p : Path) (name : String) :
    Except ErrReport (Path × String) :=
  match env.render name with
  | Except.error _ => Except.error ⟨Error.Render, [pathStr p]⟩
  | Except.ok rendered =>
    match stripSuffixQ (fileNameD p) TEMPLATE_SUFFIX with
    | none =>
      Except.error ⟨Error.InternalError,
        ["Template path did not end in .sql.tera: " ++ pathStr p]⟩
    | some base =>
      let fname := base ++ "." ++ (opts.extension.getD "sql")
      let dest := outputPath opts.output p fname
      let headed := withHeader (opts.header.getD "Autogenerated by sqlweld") rendered
      match opts.formatter with
      | none => Except.ok (dest, headed)
      | some _ =>
        match runFormatter (env.runFmt headed) with
        | Except.error r => Except.error r
        | Except.ok formatted => Except.ok (dest, formatted)

/-- Outcome of processing one normal template. -/
inductive StepResult where
  | wrote (dest : Path) (content : String)
  | skipped (dest : Path) (content : String)
  | failed (r : ErrReport)
deriving DecidableEq, Repr

/-- The destination of a non-failed step. -/
def StepResult.destQ : StepResult → Option Path
  | StepResult.wrote d _ => some d
  | StepResult.skipped d _ => some d
  | StepResult.failed _ => none

/-- The write performed by a step, if any. -/
def wrotePair : StepResult → Option (Path × String)
  | StepResult.wrote d c => some (d, c)
  | StepResult.skipped _ _ => none
  | StepResult.failed _ => none

/-- One iteration of the parallel output loop (`lib.rs:211-315`): compute
the output, skip the write when the destination already holds exactly the
computed content and `always_write` is off (`lib.rs:294-306`), else write
through `write_file` (`lib.rs:312`). -/
def processTemplate (opts : Options) (env : Env) (p : Path) (name : String) : StepResult :=
  match computeOutput opts env p name with
  | Except.error r => StepResult.failed r
  | Except.ok dc =>
    if opts.alwaysWrite = false ∧ env.readExisting dc.1 = some dc.2 then
      StepResult.skipped dc.1 dc.2
    else
      match (writeOutcome env dc.1 dc.2).result with
      | some r => StepResult.failed r
      | none => StepResult.wrote dc.1 dc.2

/-- The result of a run: the writes performed (destination and content, in
processing order) and the first error observed, if any. -/
structure BuildResult where
  writes : List (Path × String)
  error : Option ErrReport
deriving DecidableEq, Repr

/-- The `try_for_each` loop over the normal templates (`lib.rs:208-315`), linearized:
the first failure aborts the remaining work.  (The source runs this fan-out
in parallel with no ordering guarantee; the set of completed sibling writes
at the moment of a failure is unspecified there, and every claim settled
below either has no failing run or fails before this stage starts.) -/
def runTemplates (opts : Options) (env : Env) : List (Path × String) → BuildResult
  | [] => ⟨[], none⟩
  | t :: rest =>
    match processTemplate opts env t.1 t.2 with
    | StepResult.failed r => ⟨[], some r⟩
    | StepResult.skipped _ _ => runTemplates opts env rest
    | StepResult.wrote d c =>
      let res := runTemplates opts env rest
      ⟨(d, c) :: res.writes, res.error⟩

/-- Source function `build` (`lib.rs:80-318`): classify the discovered paths (duplicate
partial names abort with both paths attached, `lib.rs:181-189`), register
all sources with the engine (`lib.rs:194-195`, a `ReadTemplate` failure when
any source does not parse), succeed with no output when nothing was
registered (`lib.rs:197-202`), else process every normal template
(`lib.rs:208-315`). -/
def build (opts : Options) (env : Env) (files : List Path) : BuildResult :=
  match classifyFrom ⟨[], []⟩ files with
  | Except.error ec =>
    ⟨[], some ⟨Error.DuplicatePartial, [pathStr ec.1, pathStr ec.2]⟩⟩
  | Except.ok st =>
    if env.compileOk st.templates = false then ⟨[], some ⟨Error.ReadTemplate, []⟩⟩
    else if st.templates = [] then ⟨[], none⟩
    else
      runTemplates opts env
        (st.templates.filter fun t => templateType (pathStr t.1) = TemplateType.Normal)

/-- The normal-template worklist of a run (`lib.rs:208-210`): the registered
templates whose path classifies as normal; empty when classification fails. -/
def normalsOf (files : List Path) : List (Path × String) :=
  match classifyFrom ⟨[], []⟩ files with
  | Except.error _ => []
  | Except.ok st =>
    st.templates.filter fun t => templateType (pathStr t.1) = TemplateType.Normal

/-- The filesystem read oracle after a list of writes has landed: a written
destination reads back its content, anything else reads as before. -/
def overlay (writes : List (Path × String)) (fs : Path → Option String) :
    Path → Option String :=
  fun p =>
    match writes.find? fun w => w.1 == p with
    | some w => some w.2
    | none => fs p

/-! Concrete fixtures used to instantiate the theorems below: a benign
environment (every source compiles, every syscall succeeds, every render
produces the same SQL body, the formatter echoes its input, no destination
file exists yet) and a handful of option sets. -/

/-- A benign oracle environment for concrete runs. -/
def env0 : Env :=
  { render := fun _ => Except.ok "SELECT 1;\n"
    compileOk := fun _ => true
    runFmt := fun s => ⟨true, true, true, true, 0, some s, ""⟩
    readExisting := fun _ => none
    tempDir := ["tmp"]
    tempName := fun _ _ => "tmp_sqlweld"
    tempCreateOk := fun _ _ => true
    tempWriteOk := fun _ _ => true
    persistOk := fun _ _ => true
    directOk := fun _ _ => true }

/-- All-default options: no output root, default header, default extension,
`always_write` off, no formatter. -/
def opts0 : Options := ⟨none, none, none, false, none⟩

/-- Default options with an explicit output root `out`. -/
def opts3 : Options := ⟨some ["out"], none, none, false, none⟩

/-- Default options with the two-line header text of the spec's round-trip
example. -/
def opts4 : Options := ⟨none, some "line one\r\nline two", none, false, none⟩

/-- Default options with the output extension overridden to `gen.sql`. -/
def optsGen : Options := ⟨none, none, some "gen.sql", false, none⟩

/-- A formatter run that exits successfully with valid output but whose
stdin feed failed (e.g. the subprocess closed stdin early: broken pipe). -/
def fmtRunBrokenPipe : FmtRun := ⟨true, true, false, true, 0, some "formatted", ""⟩

/-! Helper lemmas: strings, suffixes and path separators -/

/-- The test `strEndsWith` is the char-list suffix relation. -/
theorem strEndsWith_iff {s t : String} : strEndsWith s t = true ↔ t.data <:+ s.data := by
  simp [strEndsWith, List.isSuffixOf_iff_suffix]

/-- A suffix that avoids the separator cannot reach across it. -/
theorem suffix_of_append_cons {S A B : List Char} (hS : ('/' : Char) ∉ S)
    (h : S <:+ A ++ '/' :: B) : S <:+ B := by
  have hlen : S.length ≤ (A ++ '/' :: B).length := h.length_le
  rw [List.suffix_iff_eq_drop] at h
  rcases le_or_lt S.length B.length with hle | hlt
  · rw [List.suffix_iff_eq_drop]
    have harith : (A ++ '/' :: B).length - S.length = A.length + (1 + (B.length - S.length)) := by
      simp [List.length_append]
      omega
    rw [harith, List.drop_append, Nat.add_comm 1 (B.length - S.length),
      List.drop_succ_cons] at h
    exact h
  · exfalso
    apply hS
    have hk : (A ++ '/' :: B).length - S.length ≤ A.length := by
      simp [List.length_append] at hlen ⊢
      omega
    rw [h, List.drop_append_of_le_length hk]
    exact List.mem_append_right _ (List.mem_cons_self _ _)

/-- Unfolding `pathStr` on a path with at least two components. -/
theorem pathStr_cons {c : String} {rest : Path} (h : rest ≠ []) :
    pathStr (c :: rest) = c ++ "/" ++ pathStr rest := by
  cases rest with
  | nil => exact absurd rfl h
  | cons d rest' => rfl

/-- Applying `fileNameD` to a longer path ignores the head component. -/
theorem fileNameD_cons {c : String} {rest : Path} (h : rest ≠ []) :
    fileNameD (c :: rest) = fileNameD rest := by
  cases rest with
  | nil => exact absurd rfl h
  | cons d rest' => rfl

/-- A suffix check against a separator-free needle sees only the filename:
checking the whole path string (as `template_type` does, `lib.rs:142-149`)
equals checking the last component. -/
theorem strEndsWith_pathStr {S : String} (hS : ('/' : Char) ∉ S.data) :
    ∀ (p : Path), p ≠ [] → strEndsWith (pathStr p) S = strEndsWith (fileNameD p) S := by
  intro p
  induction p with
  | nil => intro h; exact absurd rfl h
  | cons c rest ih =>
    intro _
    by_cases hne : rest = []
    · subst hne; rfl
    · rw [pathStr_cons hne, fileNameD_cons hne, ← ih hne]
      have hdata : (c ++ "/" ++ pathStr rest).data = c.data ++ '/' :: (pathStr rest).data := by
        rw [String.data_append, String.data_append]
        simp
      rcases hb : strEndsWith (pathStr rest) S with _ | _
      · rcases hb2 : strEndsWith (c ++ "/" ++ pathStr rest) S with _ | _
        · rfl
        · exfalso
          rw [strEndsWith_iff, hdata] at hb2
          have := suffix_of_append_cons hS hb2
          rw [← strEndsWith_iff] at this
          rw [hb] at this
          exact Bool.false_ne_true this
      · rw [strEndsWith_iff] at hb ⊢
        rw [hdata]
        exact hb.trans ((List.suffix_cons _ _).trans (List.suffix_append _ _))

/-- Characterization of a successful `strip_suffix`. -/
theorem stripSuffixQ_eq_some {s t r : String} : stripSuffixQ s t = some r ↔ s = r ++ t := by
  constructor
  · intro h
    unfold stripSuffixQ at h
    by_cases hs : strEndsWith s t = true
    case neg => rw [if_neg hs] at h; simp at h
    case pos =>
      rw [if_pos hs] at h
      rw [strEndsWith_iff] at hs
      obtain ⟨pre, hpre⟩ := hs
      have hlen : s.data.length - t.data.length = pre.length := by
        rw [← hpre]
        simp
      apply String.ext
      injection h with h'
      rw [← h']
      rw [String.data_append]
      simp only
      rw [hlen, ← hpre, List.take_left]
  · intro h
    subst h
    unfold stripSuffixQ
    have hs : strEndsWith (r ++ t) t = true := by
      rw [strEndsWith_iff, String.data_append]
      exact List.suffix_append _ _
    rw [if_pos hs]
    congr 1
    apply String.ext
    simp only
    rw [String.data_append]
    have : (r.data ++ t.data).length - t.data.length = r.data.length := by simp
    rw [this, List.take_left]

/-- A successful suffix check yields a successful strip. -/
theorem stripSuffixQ_isSome_of_endsWith {s t : String} (h : strEndsWith s t = true) :
    ∃ r, stripSuffixQ s t = some r ∧ s = r ++ t := by
  rw [strEndsWith_iff] at h
  obtain ⟨pre, hpre⟩ := h
  refine ⟨⟨pre⟩, ?_, ?_⟩
  · rw [stripSuffixQ_eq_some]
    apply String.ext
    rw [String.data_append, ← hpre]
  · apply String.ext
    rw [String.data_append, ← hpre]

/-! Helper lemmas: the classification loop -/

/-- The classification loop processes an appended list in two stages. -/
theorem classifyFrom_append (l1 : List Path) :
    ∀ (st : ClassifyState) (l2 : List Path),
    classifyFrom st (l1 ++ l2) =
      match classifyFrom st l1 with
      | Except.error e => Except.error e
      | Except.ok st' => classifyFrom st' l2 := by
  induction l1 with
  | nil => intro st l2; rfl
  | cons p rest ih =>
    intro st l2
    simp only [List.cons_append, classifyFrom]
    by_cases ht : templateType (pathStr p) = TemplateType.Normal
    · rw [if_pos ht, if_pos ht]
      exact ih _ _
    · rw [if_neg ht, if_neg ht]
      cases hf : st.partials.find? fun e => e.1 == derivedName p with
      | some e => rfl
      | none => exact ih _ _

/-- Registry entries are never removed by the loop. -/
theorem classifyFrom_mono (l : List Path) :
    ∀ (st st' : ClassifyState), classifyFrom st l = Except.ok st' →
    ∀ e, e ∈ st.partials → e ∈ st'.partials := by
  induction l with
  | nil =>
    intro st st' h e he
    cases h
    exact he
  | cons p rest ih =>
    intro st st' h e he
    simp only [classifyFrom] at h
    by_cases ht : templateType (pathStr p) = TemplateType.Normal
    · rw [if_pos ht] at h
      exact ih _ _ h e he
    · rw [if_neg ht] at h
      cases hf : st.partials.find? fun x => x.1 == derivedName p with
      | some x =>
        rw [hf] at h
        cases h
      | none =>
        rw [hf] at h
        exact ih _ _ h e (List.mem_append_left _ he)

/-- Soundness of the duplicate error: when the loop aborts, the reported
pair consists of two distinct discovered non-normal paths deriving the same
logical name, the second of which is the one under scrutiny.  `S` abstracts
the already-consumed prefix of the walk whose non-normal members populate
the registry. -/
theorem classify_error_sound (l : List Path) :
    ∀ (S : List Path) (st : ClassifyState),
    (∀ e ∈ st.partials, templateType (pathStr e.2) ≠ TemplateType.Normal ∧
      derivedName e.2 = e.1 ∧ e.2 ∈ S) →
    (S ++ l).Nodup →
    ∀ ec : Path × Path, classifyFrom st l = Except.error ec →
    templateType (pathStr ec.1) ≠ TemplateType.Normal ∧
    templateType (pathStr ec.2) ≠ TemplateType.Normal ∧
    derivedName ec.1 = derivedName ec.2 ∧
    ec.1 ∈ S ++ l ∧ ec.2 ∈ l ∧ ec.1 ≠ ec.2 := by
  induction l with
  | nil =>
    intro S st _ _ ec h
    simp [classifyFrom] at h
  | cons p rest ih =>
    intro S st hinv hnd ec h
    have hassoc : S ++ p :: rest = (S ++ [p]) ++ rest := by simp
    simp only [classifyFrom] at h
    by_cases ht : templateType (pathStr p) = TemplateType.Normal
    · rw [if_pos ht] at h
      have hnd' : ((S ++ [p]) ++ rest).Nodup := by rw [← hassoc]; exact hnd
      have hinv' : ∀ e ∈ (ClassifyState.mk st.partials
          (st.templates ++ [(p, derivedName p)])).partials,
          templateType (pathStr e.2) ≠ TemplateType.Normal ∧
          derivedName e.2 = e.1 ∧ e.2 ∈ S ++ [p] := by
        intro e he
        obtain ⟨h1, h2, h3⟩ := hinv e he
        exact ⟨h1, h2, List.mem_append_left _ h3⟩
      obtain ⟨a1, a2, a3, a4, a5, a6⟩ := ih (S ++ [p]) _ hinv' hnd' ec h
      refine ⟨a1, a2, a3, ?_, List.mem_cons_of_mem _ a5, a6⟩
      rw [hassoc]
      exact a4
    · rw [if_neg ht] at h
      cases hf : st.partials.find? fun x => x.1 == derivedName p with
      | some x =>
        rw [hf] at h
        injection h with h'
        have hx := List.mem_of_find?_eq_some hf
        have hpred := List.find?_some hf
        have hname : x.1 = derivedName p := by simpa using hpred
        obtain ⟨h1, h2, h3⟩ := hinv x hx
        have hdisj : S.Disjoint (p :: rest) := (List.nodup_append.mp hnd).2.2
        subst h'
        refine ⟨h1, ht, ?_, List.mem_append_left _ h3, List.mem_cons_self _ _, ?_⟩
        · rw [h2, hname]
        · intro hcontra
          have hxp : x.2 = p := hcontra
          rw [hxp] at h3
          exact hdisj h3 (List.mem_cons_self _ _)
      | none =>
        rw [hf] at h
        have hnd' : ((S ++ [p]) ++ rest).Nodup := by rw [← hassoc]; exact hnd
        have hinv' : ∀ e ∈ st.partials ++ [(derivedName p, p)],
            templateType (pathStr e.2) ≠ TemplateType.Normal ∧
            derivedName e.2 = e.1 ∧ e.2 ∈ S ++ [p] := by
          intro e he
          rcases List.mem_append.mp he with h' | h'
          · obtain ⟨h1, h2, h3⟩ := hinv e h'
            exact ⟨h1, h2, List.mem_append_left _ h3⟩
          · rcases List.mem_singleton.mp h' with rfl
            exact ⟨ht, rfl, List.mem_append_right _ (List.mem_singleton_self _)⟩
        obtain ⟨a1, a2, a3, a4, a5, a6⟩ := ih (S ++ [p]) _ hinv' hnd' ec h
        refine ⟨a1, a2, a3, ?_, List.mem_cons_of_mem _ a5, a6⟩
        rw [hassoc]
        exact a4

/-- Completeness of the duplicate error: whenever two non-normal paths with
the same derived name occur anywhere in the walk, the loop aborts. -/
theorem classify_error_exists (l1 l2 l3 : List Path) (a b : Path)
    (ha : templateType (pathStr a) ≠ TemplateType.Normal)
    (hb : templateType (pathStr b) ≠ TemplateType.Normal)
    (hn : derivedName a = derivedName b) :
    ∃ ec, classifyFrom ⟨[], []⟩ (l1 ++ a :: (l2 ++ b :: l3)) = Except.error ec := by
  rw [classifyFrom_append]
  cases h1 : classifyFrom ⟨[], []⟩ l1 with
  | error e => exact ⟨e, rfl⟩
  | ok st1 =>
    simp only [classifyFrom]
    rw [if_neg ha]
    cases hf : st1.partials.find? fun x => x.1 == derivedName a with
    | some x => exact ⟨(x.2, a), rfl⟩
    | none =>
      rw [classifyFrom_append]
      cases h2 : classifyFrom
          ⟨st1.partials ++ [(derivedName a, a)], st1.templates ++ [(a, derivedName a)]⟩ l2 with
      | error e => exact ⟨e, rfl⟩
      | ok st2 =>
        have hmem : (derivedName a, a) ∈ st2.partials :=
          classifyFrom_mono _ _ _ h2 _
            (List.mem_append_right _ (List.mem_singleton_self _))
        simp only [classifyFrom]
        rw [if_neg hb]
        have hsome : (st2.partials.find? fun x => x.1 == derivedName b).isSome = true :=
          List.find?_isSome.mpr ⟨(derivedName a, a), hmem, by simp [hn]⟩
        cases hf2 : st2.partials.find? fun x => x.1 == derivedName b with
        | none =>
          rw [hf2] at hsome
          simp at hsome
        | some x => exact ⟨(x.2, b), rfl⟩

/-! Helper lemmas: the per-template output stage -/

/-- Inversion: a non-failed step pins down the computed destination and
content. -/
theorem processTemplate_dest_content {opts : Options} {env : Env} {p : Path}
    {n : String} {d : Path} {c : String}
    (h : processTemplate opts env p n = StepResult.wrote d c ∨
         processTemplate opts env p n = StepResult.skipped d c) :
    computeOutput opts env p n = Except.ok (d, c) := by
  unfold processTemplate at h
  cases hc : computeOutput opts env p n with
  | error r =>
    rw [hc] at h
    rcases h with h | h <;> simp at h
  | ok dc =>
    obtain ⟨d0, c0⟩ := dc
    rw [hc] at h
    simp only at h
    by_cases hskip : opts.alwaysWrite = false ∧ env.readExisting d0 = some c0
    · rw [if_pos hskip] at h
      rcases h with h | h
      · simp at h
      · simp only [StepResult.skipped.injEq] at h
        rw [h.1, h.2]
    · rw [if_neg hskip] at h
      cases hw : (writeOutcome env d0 c0).result with
      | some r =>
        rw [hw] at h
        rcases h with h | h <;> simp at h
      | none =>
        rw [hw] at h
        rcases h with h | h
        · simp only [StepResult.wrote.injEq] at h
          rw [h.1, h.2]
        · simp at h

/-- Inversion: a skipped step means the destination already held exactly the
computed content and `always_write` was off (`lib.rs:294-306`). -/
theorem skipped_inversion {opts : Options} {env : Env} {p : Path} {n : String}
    {d : Path} {c : String}
    (h : processTemplate opts env p n = StepResult.skipped d c) :
    opts.alwaysWrite = false ∧ env.readExisting d = some c := by
  unfold processTemplate at h
  cases hc : computeOutput opts env p n with
  | error r => rw [hc] at h; simp at h
  | ok dc =>
    obtain ⟨d0, c0⟩ := dc
    rw [hc] at h
    simp only at h
    by_cases hskip : opts.alwaysWrite = false ∧ env.readExisting d0 = some c0
    · rw [if_pos hskip] at h
      simp only [StepResult.skipped.injEq] at h
      rw [← h.1, ← h.2]
      exact hskip
    · rw [if_neg hskip] at h
      cases hw : (writeOutcome env d0 c0).result with
      | some r => rw [hw] at h; simp at h
      | none => rw [hw] at h; simp at h

/-- Replacing only the filesystem-read oracle does not change the computed
output. -/
theorem computeOutput_readExisting (opts : Options) (env : Env)
    (g : Path → Option String) (p : Path) (n : String) :
    computeOutput opts { env with readExisting := g } p n = computeOutput opts env p n := rfl

/-- A template whose destination already holds the computed content is
skipped on a rerun with `always_write` off. -/
theorem processTemplate_rerun_skips {opts : Options} {env : Env}
    {g : Path → Option String} {p : Path} {n : String} {d : Path} {c : String}
    (hstep : processTemplate opts env p n = StepResult.wrote d c ∨
             processTemplate opts env p n = StepResult.skipped d c)
    (haw : opts.alwaysWrite = false)
    (hread : g d = some c) :
    processTemplate opts { env with readExisting := g } p n = StepResult.skipped d c := by
  have hc : computeOutput opts env p n = Except.ok (d, c) :=
    processTemplate_dest_content hstep
  have hg : computeOutput opts { env with readExisting := g } p n = Except.ok (d, c) := hc
  simp [processTemplate, hg, haw, hread]

/-- A successful run reports exactly the writes of its non-failed steps, in
order, and has no failing step. -/
theorem runTemplates_ok_inversion (opts : Options) (env : Env) :
    ∀ (l : List (Path × String)) (W : List (Path × String)),
    runTemplates opts env l = ⟨W, none⟩ →
    (∀ t ∈ l, ∃ d c, processTemplate opts env t.1 t.2 = StepResult.wrote d c ∨
      processTemplate opts env t.1 t.2 = StepResult.skipped d c) ∧
    W = l.filterMap fun t => wrotePair (processTemplate opts env t.1 t.2) := by
  intro l
  induction l with
  | nil =>
    intro W h
    injection h with h1 _
    exact ⟨fun t ht => absurd ht (List.not_mem_nil t), h1.symm⟩
  | cons t rest ih =>
    intro W h
    simp only [runTemplates] at h
    cases hs : processTemplate opts env t.1 t.2 with
    | failed r =>
      rw [hs] at h
      injection h with _ h2
      cases h2
    | skipped d c =>
      rw [hs] at h
      obtain ⟨h1, h2⟩ := ih W h
      refine ⟨?_, ?_⟩
      · intro u hu
        rcases List.mem_cons.mp hu with rfl | hu'
        · exact ⟨d, c, Or.inr hs⟩
        · exact h1 u hu'
      · simp only [List.filterMap_cons, hs, wrotePair]
        exact h2
    | wrote d c =>
      rw [hs] at h
      injection h with h1 h2
      obtain ⟨g1, g2⟩ := ih _ (by
        show runTemplates opts env rest = ⟨(runTemplates opts env rest).writes, none⟩
        cases hr : runTemplates opts env rest
        simp only at h2 ⊢
        rw [hr] at h2
        simp only at h2
        rw [h2])
      refine ⟨?_, ?_⟩
      · intro u hu
        rcases List.mem_cons.mp hu with rfl | hu'
        · exact ⟨d, c, Or.inl hs⟩
        · exact g1 u hu'
      · simp only [List.filterMap_cons, hs, wrotePair]
        rw [← h1]
        exact congrArg (List.cons (d, c)) g2

/-- When every step skips, a run writes nothing and succeeds. -/
theorem runTemplates_all_skipped (opts : Options) (env : Env) :
    ∀ (l : List (Path × String)),
    (∀ t ∈ l, ∃ d c, processTemplate opts env t.1 t.2 = StepResult.skipped d c) →
    runTemplates opts env l = ⟨[], none⟩ := by
  intro l
  induction l with
  | nil => intro _; rfl
  | cons t rest ih =>
    intro h
    obtain ⟨d, c, hs⟩ := h t (List.mem_cons_self _ _)
    simp only [runTemplates, hs]
    exact ih fun u hu => h u (List.mem_cons_of_mem _ hu)

/-- Every recorded write stems from a step that wrote to that destination. -/
theorem mem_writes_dest (opts : Options) (env : Env) (l : List (Path × String))
    (w : Path × String)
    (hw : w ∈ l.filterMap fun u => wrotePair (processTemplate opts env u.1 u.2)) :
    some w.1 ∈ l.map fun u => (processTemplate opts env u.1 u.2).destQ := by
  obtain ⟨a, ha, hfa⟩ := List.mem_filterMap.mp hw
  cases hs : processTemplate opts env a.1 a.2 with
  | wrote d c =>
    rw [hs] at hfa
    simp only [wrotePair] at hfa
    injection hfa with hw'
    refine List.mem_map.mpr ⟨a, ha, ?_⟩
    rw [hs, ← hw']
    rfl
  | skipped d c =>
    rw [hs] at hfa
    simp [wrotePair] at hfa
  | failed r =>
    rw [hs] at hfa
    simp [wrotePair] at hfa

/-- When no two steps of a run share a destination, the recorded writes are
looked up correctly: a step that wrote is found with its content, a step
that skipped is absent from the write list. -/
theorem writes_find (opts : Options) (env : Env) :
    ∀ (l : List (Path × String)),
    ((l.map fun u => (processTemplate opts env u.1 u.2).destQ).Nodup) →
    ∀ t ∈ l, ∀ (d : Path) (c : String),
      (processTemplate opts env t.1 t.2 = StepResult.wrote d c →
        ((l.filterMap fun u => wrotePair (processTemplate opts env u.1 u.2)).find?
          fun w => w.1 == d) = some (d, c)) ∧
      (processTemplate opts env t.1 t.2 = StepResult.skipped d c →
        ((l.filterMap fun u => wrotePair (processTemplate opts env u.1 u.2)).find?
          fun w => w.1 == d) = none) := by
  intro l
  induction l with
  | nil =>
    intro _ t ht
    exact absurd ht (List.not_mem_nil t)
  | cons a rest ih =>
    intro hnd t ht d c
    rw [List.map_cons, List.nodup_cons] at hnd
    have hnd1 := hnd.1
    have hnd2 := hnd.2
    rcases List.mem_cons.mp ht with rfl | htr
    · constructor
      · intro hs
        have hfa : wrotePair (processTemplate opts env t.1 t.2) = some (d, c) := by
          rw [hs]; rfl
        rw [@List.filterMap_cons_some _ _
          (fun u => wrotePair (processTemplate opts env u.1 u.2)) t rest (d, c) hfa]
        exact List.find?_cons_of_pos _ (by simp)
      · intro hs
        have hfa : wrotePair (processTemplate opts env t.1 t.2) = none := by
          rw [hs]; rfl
        rw [@List.filterMap_cons_none _ _
          (fun u => wrotePair (processTemplate opts env u.1 u.2)) t rest hfa]
        rw [List.find?_eq_none]
        intro w hw hbeq
        have hmem := mem_writes_dest opts env rest w hw
        have hwd : w.1 = d := by simpa using hbeq
        rw [hwd] at hmem
        apply hnd1
        have hq : (processTemplate opts env t.1 t.2).destQ = some d := by rw [hs]; rfl
        rw [hq]
        exact hmem
    · have hdmem : ∀ d' : Path, (processTemplate opts env t.1 t.2).destQ = some d' →
          some d' ∈ rest.map fun u => (processTemplate opts env u.1 u.2).destQ :=
        fun d' hq => List.mem_map.mpr ⟨t, htr, hq⟩
      have hstep : ∀ (d0 : Path) (c0 : String),
          processTemplate opts env a.1 a.2 = StepResult.wrote d0 c0 → (d0 == d) = false →
          True := fun _ _ _ _ => trivial
      constructor
      · intro hs
        cases hsa : processTemplate opts env a.1 a.2 with
        | wrote d0 c0 =>
          have hfa : wrotePair (processTemplate opts env a.1 a.2) = some (d0, c0) := by
            rw [hsa]; rfl
          rw [@List.filterMap_cons_some _ _
            (fun u => wrotePair (processTemplate opts env u.1 u.2)) a rest (d0, c0) hfa]
          have hne : ¬((d0, c0).1 == d) = true := by
            simp only [beq_iff_eq]
            intro hcontra
            apply hnd1
            have hq : (processTemplate opts env a.1 a.2).destQ = some d0 := by rw [hsa]; rfl
            rw [hq, hcontra]
            exact hdmem d (by rw [hs]; rfl)
          rw [@List.find?_cons_of_neg _ (fun w => w.1 == d) (d0, c0)
            (List.filterMap (fun u => wrotePair (processTemplate opts env u.1 u.2)) rest) hne]
          exact (ih hnd2 t htr d c).1 hs
        | skipped d0 c0 =>
          have hfa : wrotePair (processTemplate opts env a.1 a.2) = none := by
            rw [hsa]; rfl
          rw [@List.filterMap_cons_none _ _
            (fun u => wrotePair (processTemplate opts env u.1 u.2)) a rest hfa]
          exact (ih hnd2 t htr d c).1 hs
        | failed r =>
          have hfa : wrotePair (processTemplate opts env a.1 a.2) = none := by
            rw [hsa]; rfl
          rw [@List.filterMap_cons_none _ _
            (fun u => wrotePair (processTemplate opts env u.1 u.2)) a rest hfa]
          exact (ih hnd2 t htr d c).1 hs
      · intro hs
        cases hsa : processTemplate opts env a.1 a.2 with
        | wrote d0 c0 =>
          have hfa : wrotePair (processTemplate opts env a.1 a.2) = some (d0, c0) := by
            rw [hsa]; rfl
          rw [@List.filterMap_cons_some _ _
            (fun u => wrotePair (processTemplate opts env u.1 u.2)) a rest (d0, c0) hfa]
          have hne : ¬((d0, c0).1 == d) = true := by
            simp only [beq_iff_eq]
            intro hcontra
            apply hnd1
            have hq : (processTemplate opts env a.1 a.2).destQ = some d0 := by rw [hsa]; rfl
            rw [hq, hcontra]
            exact hdmem d (by rw [hs]; rfl)
          rw [@List.find?_cons_of_neg _ (fun w => w.1 == d) (d0, c0)
            (List.filterMap (fun u => wrotePair (processTemplate opts env u.1 u.2)) rest) hne]
          exact (ih hnd2 t htr d c).2 hs
        | skipped d0 c0 =>
          have hfa : wrotePair (processTemplate opts env a.1 a.2) = none := by
            rw [hsa]; rfl
          rw [@List.filterMap_cons_none _ _
            (fun u => wrotePair (processTemplate opts env u.1 u.2)) a rest hfa]
          exact (ih hnd2 t htr d c).2 hs
        | failed r =>
          have hfa : wrotePair (processTemplate opts env a.1 a.2) = none := by
            rw [hsa]; rfl
          rw [@List.filterMap_cons_none _ _
            (fun u => wrotePair (processTemplate opts env u.1 u.2)) a rest hfa]
          exact (ih hnd2 t htr d c).2 hs

/-! Helper lemmas: characterizations of `build`, `templateType` and
`computeOutput` -/

/-- Unfolding `build` after a failed classification (`lib.rs:181-186`). -/
theorem build_eq_of_classify_error {files : List Path} {ec : Path × Path}
    (hcls : classifyFrom ⟨[], []⟩ files = Except.error ec)
    (opts : Options) (env : Env) :
    build opts env files =
      ⟨[], some ⟨Error.DuplicatePartial, [pathStr ec.1, pathStr ec.2]⟩⟩ := by
  unfold build
  rw [hcls]

/-- Unfolding `build` after a successful classification (`lib.rs:194-315`). -/
theorem build_eq_of_classify_ok {files : List Path} {st : ClassifyState}
    (hcls : classifyFrom ⟨[], []⟩ files = Except.ok st)
    (opts : Options) (env : Env) :
    build opts env files =
      if env.compileOk st.templates = false then ⟨[], some ⟨Error.ReadTemplate, []⟩⟩
      else if st.templates = [] then ⟨[], none⟩
      else runTemplates opts env
        (st.templates.filter fun t => templateType (pathStr t.1) = TemplateType.Normal) := by
  unfold build
  rw [hcls]

/-- Inversion of the role decision: macro. -/
theorem templateType_macro_iff {s : String} :
    templateType s = TemplateType.Macro ↔ strEndsWith s MACRO_SUFFIX = true := by
  unfold templateType
  cases h1 : strEndsWith s MACRO_SUFFIX with
  | true => simp
  | false =>
    simp only [Bool.false_eq_true, if_false]
    cases h2 : strEndsWith s PARTIAL_SUFFIX <;> simp

/-- Inversion of the role decision: partial fragment. -/
theorem templateType_partial_iff {s : String} :
    templateType s = TemplateType.Partial ↔
      (strEndsWith s MACRO_SUFFIX = false ∧ strEndsWith s PARTIAL_SUFFIX = true) := by
  unfold templateType
  cases h1 : strEndsWith s MACRO_SUFFIX with
  | true => simp
  | false =>
    cases h2 : strEndsWith s PARTIAL_SUFFIX <;> simp

/-- Inversion of the role decision: normal fallback. -/
theorem templateType_normal_iff {s : String} :
    templateType s = TemplateType.Normal ↔
      (strEndsWith s MACRO_SUFFIX = false ∧ strEndsWith s PARTIAL_SUFFIX = false) := by
  unfold templateType
  cases h1 : strEndsWith s MACRO_SUFFIX with
  | true => simp
  | false =>
    cases h2 : strEndsWith s PARTIAL_SUFFIX <;> simp

/-- For a non-empty path classified as a partial or macro file, the role
suffix strip of the filename performed by the source (`lib.rs:165-178`)
always succeeds: the classifier's `unwrap` cannot panic. -/
theorem strip_succeeds_of_role (p : Path) (hne : p ≠ []) :
    (templateType (pathStr p) = TemplateType.Macro →
      ∃ base, stripSuffixQ (fileNameD p) MACRO_SUFFIX = some base ∧
        fileNameD p = base ++ MACRO_SUFFIX) ∧
    (templateType (pathStr p) = TemplateType.Partial →
      ∃ base, stripSuffixQ (fileNameD p) PARTIAL_SUFFIX = some base ∧
        fileNameD p = base ++ PARTIAL_SUFFIX) := by
  constructor
  · intro h
    have hm := templateType_macro_iff.mp h
    rw [strEndsWith_pathStr (by decide) p hne] at hm
    exact stripSuffixQ_isSome_of_endsWith hm
  · intro h
    have hm := (templateType_partial_iff.mp h).2
    rw [strEndsWith_pathStr (by decide) p hne] at hm
    exact stripSuffixQ_isSome_of_endsWith hm

/-- Inversion of a successful `computeOutput`: the destination is derived
from the stripped filename, the configured extension and the output root
(`lib.rs:218-236`). -/
theorem computeOutput_dest {opts : Options} {env : Env} {p : Path} {n : String}
    {d : Path} {c : String}
    (h : computeOutput opts env p n = Except.ok (d, c)) :
    ∃ base, stripSuffixQ (fileNameD p) TEMPLATE_SUFFIX = some base ∧
      d = outputPath opts.output p (base ++ "." ++ opts.extension.getD "sql") := by
  unfold computeOutput at h
  cases hr : env.render n with
  | error e => rw [hr] at h; cases h
  | ok rendered =>
    rw [hr] at h
    simp only at h
    cases hs : stripSuffixQ (fileNameD p) TEMPLATE_SUFFIX with
    | none => rw [hs] at h; cases h
    | some base =>
      rw [hs] at h
      simp only at h
      refine ⟨base, rfl, ?_⟩
      cases hf : opts.formatter with
      | none =>
        rw [hf] at h
        simp only at h
        injection h with h'
        exact (congrArg Prod.fst h').symm
      | some cmd =>
        rw [hf] at h
        simp only at h
        cases hrf : runFormatter (env.runFmt (withHeader
            (opts.header.getD "Autogenerated by sqlweld") rendered)) with
        | error r => rw [hrf] at h; cases h
        | ok formatted =>
          rw [hrf] at h
          injection h with h'
          exact (congrArg Prod.fst h').symm

/-- A path whose filename strips the template suffix is non-empty. -/
theorem ne_nil_of_strip {p : Path} {base : String}
    (h : stripSuffixQ (fileNameD p) TEMPLATE_SUFFIX = some base) : p ≠ [] := by
  intro hcontra
  subst hcontra
  have heq := stripSuffixQ_eq_some.mp h
  have hlen := congrArg String.length heq
  rw [String.length_append] at hlen
  have h9 : TEMPLATE_SUFFIX.length = 9 := rfl
  have h0 : (fileNameD ([] : Path)).length = 0 := rfl
  rw [h9, h0] at hlen
  omega

/-- Cancel a common string suffix. -/
theorem str_append_right_cancel {a b c : String} (h : a ++ c = b ++ c) : a = b := by
  apply String.ext
  have hd := congrArg String.data h
  rw [String.data_append, String.data_append] at hd
  exact List.append_cancel_right hd

/-- A string with positive length is not empty. -/
theorem str_ne_empty_of_length_ne_zero {s : String} (h : s.length ≠ 0) : s ≠ "" :=
  fun heq => h (by rw [heq]; rfl)

/-- A non-empty list of surviving header lines joins to a non-empty block:
the string-emptiness test of the source (`lib.rs:250`) coincides with
list emptiness. -/
theorem headerLines_ne_empty {h : String} (hne : survivingLines h ≠ []) :
    headerLines h ≠ "" := by
  unfold headerLines
  cases hsl : survivingLines h with
  | nil => exact absurd hsl hne
  | cons x xs =>
    have hx : x ∈ survivingLines h := by
      rw [hsl]
      exact List.mem_cons_self _ _
    obtain ⟨s0, _, hs0⟩ := List.mem_map.mp (by unfold survivingLines at hx; exact hx)
    apply str_ne_empty_of_length_ne_zero
    cases xs with
    | nil =>
      show (joinLines [x]).length ≠ 0
      simp only [joinLines]
      rw [← hs0, String.length_append]
      have h3 : ("-- " : String).length = 3 := rfl
      rw [h3]
      omega
    | cons y ys =>
      show (joinLines (x :: y :: ys)).length ≠ 0
      simp only [joinLines]
      rw [← hs0, String.length_append, String.length_append, String.length_append]
      have h3 : ("-- " : String).length = 3 := rfl
      rw [h3]
      omega

/-! The claims -/

/-- C2 counterexample: the temporary file of the atomic attempt is not
created in the same filesystem location as the destination.
`tempfile::NamedTempFile::new()` (`lib.rs:321`) places it in the system
temporary directory: for the destination `home/proj/out.sql` (and temp dir
`tmp`) the temp file lives in `tmp`, not in `home/proj`. -/
theorem claim_c2_cex :
    atomicTempPath env0 ["home", "proj", "out.sql"] "SELECT 1;\n" =
      ["tmp", "tmp_sqlweld"] ∧
    (atomicTempPath env0 ["home", "proj", "out.sql"] "SELECT 1;\n").dropLast = ["tmp"] ∧
    (["home", "proj", "out.sql"] : Path).dropLast = ["home", "proj"] ∧
    (["tmp"] : Path) ≠ ["home", "proj"] := by decide

/-- C2 amended: for every write of a rendered output, the pipeline first
attempts an atomic write consisting of writing the contents to a temporary
file in the system temporary directory - a location independent of the
destination, hence possibly on a different filesystem - and then renaming
it into place (the attempt succeeds exactly when all three steps succeed);
the direct non-atomic fallback is attempted if and only if the atomic
attempt fails, and a `WriteResult` error (with the destination attached)
surfaces exactly when the fallback write also fails. -/
theorem claim_c2_amended (env : Env) (dest : Path) (content : String) :
    (atomicTempPath env dest content).dropLast = env.tempDir ∧
    atomic_write_file (env.tempCreateOk dest content) (env.tempWriteOk dest content)
        (env.persistOk dest content) =
      (env.tempCreateOk dest content && env.tempWriteOk dest content &&
        env.persistOk dest content) ∧
    (writeOutcome env dest content).directAttempted =
      !(atomic_write_file (env.tempCreateOk dest content) (env.tempWriteOk dest content)
        (env.persistOk dest content)) ∧
    (writeOutcome env dest content).result =
      (if atomic_write_file (env.tempCreateOk dest content) (env.tempWriteOk dest content)
            (env.persistOk dest content) || env.directOk dest content then none
       else some ⟨Error.WriteResult, [pathStr dest]⟩) := by
  refine ⟨by simp [atomicTempPath], ?_⟩
  unfold writeOutcome write_file atomic_write_file
  cases h1 : env.tempCreateOk dest content <;> cases h2 : env.tempWriteOk dest content <;>
    cases h3 : env.persistOk dest content <;> cases h4 : env.directOk dest content <;> simp

/-- C4: the emitted header block is the configured text split on any newline
character, the lines trimmed, empty lines dropped, the survivors prefixed
with the SQL line-comment marker and joined with newlines, followed by one
blank separator line before the body; when no line survives, both the block
and the separator are omitted.  In particular, the header text
`"line one\r\nline two"` produces a file beginning with
`"-- line one\n-- line two\n\n"`, end to end through the output stage. -/
theorem claim_c4_header (h body : String) :
    (survivingLines h = [] → withHeader h body = body) ∧
    (survivingLines h ≠ [] →
      withHeader h body = joinLines (survivingLines h) ++ "\n\n" ++ body) ∧
    withHeader "line one\r\nline two" body = "-- line one\n-- line two\n\n" ++ body ∧
    withHeader "" body = body ∧
    processTemplate opts4 env0 ["t.sql.tera"] "t.sql.tera" =
      StepResult.wrote ["t.sql"] ("-- line one\n-- line two\n\n" ++ "SELECT 1;\n") := by
  refine ⟨?_, ?_, ?_, ?_, ?_⟩
  · intro hsl
    unfold withHeader headerLines
    rw [hsl]
    rfl
  · intro hsl
    have hne := headerLines_ne_empty hsl
    unfold withHeader
    rw [if_neg hne]
    rfl
  · have hl : headerLines "line one\r\nline two" = "-- line one\n-- line two" := rfl
    unfold withHeader
    rw [hl, if_neg (by decide)]
    have hcat : ("-- line one\n-- line two" : String) ++ "\n\n" =
        "-- line one\n-- line two\n\n" := rfl
    rw [← hcat]
  · rfl
  · rfl

/-- C5: the output path strips the full template suffix from the source
filename and appends a dot plus the configured extension (default `sql`);
with an explicit output root the file lands directly in the root (filename
only), otherwise beside the source file. -/
theorem claim_c5_output_path (opts : Options) (env : Env) (p : Path) (n : String)
    (rendered base : String)
    (hrender : env.render n = Except.ok rendered)
    (hfmt : opts.formatter = none)
    (hstrip : stripSuffixQ (fileNameD p) TEMPLATE_SUFFIX = some base) :
    computeOutput opts env p n = Except.ok
      (outputPath opts.output p (base ++ "." ++ opts.extension.getD "sql"),
        withHeader (opts.header.getD "Autogenerated by sqlweld") rendered) ∧
    (∀ root fname, outputPath (some root) p fname = root ++ [fname]) ∧
    (∀ fname, outputPath none p fname = p.dropLast ++ [fname]) ∧
    fileNameD p = base ++ TEMPLATE_SUFFIX := by
  refine ⟨?_, fun root fname => rfl, fun fname => rfl, stripSuffixQ_eq_some.mp hstrip⟩
  simp [computeOutput, hrender, hstrip, hfmt]

/-- C5 witness: `foo.sql.tera` produces `foo.gen.sql` under
`extension = "gen.sql"` and `foo.sql` with no override. -/
theorem claim_c5_witness :
    computeOutput optsGen env0 ["foo.sql.tera"] "foo.sql.tera" =
      Except.ok (["foo.gen.sql"], "-- Autogenerated by sqlweld\n\nSELECT 1;\n") ∧
    computeOutput opts0 env0 ["foo.sql.tera"] "foo.sql.tera" =
      Except.ok (["foo.sql"], "-- Autogenerated by sqlweld\n\nSELECT 1;\n") := by
  constructor
  · exact (claim_c5_output_path optsGen env0 ["foo.sql.tera"] "foo.sql.tera"
      "SELECT 1;\n" "foo" rfl rfl (by decide)).1
  · exact (claim_c5_output_path opts0 env0 ["foo.sql.tera"] "foo.sql.tera"
      "SELECT 1;\n" "foo" rfl rfl (by decide)).1

/-- C8 counterexample: the claim's "if and only if" fails.  A formatter
subprocess that exits successfully with valid stdout, but whose stdin feed
failed (broken pipe), is a fatal `Formatter` error — its output does not
replace the text (`lib.rs:275-278` propagates the writer thread's failure
before the exit status is consulted). -/
theorem claim_c8_cex :
    fmtRunBrokenPipe.success = true ∧ fmtRunBrokenPipe.stdout = some "formatted" ∧
    runFormatter fmtRunBrokenPipe = Except.error ⟨Error.Formatter, []⟩ :=
  ⟨rfl, rfl, rfl⟩

/-- C8 amended: the formatter's stdout replaces the text only if the
subprocess exited successfully and its stdout is valid text; when spawning,
the stdin feed and output collection all succeed, a non-zero exit is a
fatal `Formatter` error carrying the exit code and the captured stderr, and
a successful exit replaces the text exactly when stdout is valid text. -/
theorem claim_c8_amended (r : FmtRun) :
    (∀ s, runFormatter r = Except.ok s → r.success = true ∧ r.stdout = some s) ∧
    (r.spawnOk = true → r.waitOk = true → r.writeOk = true →
      (r.success = false → runFormatter r =
        Except.error ⟨Error.Formatter,
          ["Formatter exited with code " ++ toString r.exitCode, r.stderr]⟩) ∧
      (r.success = true → runFormatter r = (match r.stdout with
        | some s => Except.ok s
        | none => Except.error ⟨Error.Formatter, []⟩))) := by
  obtain ⟨sp, wa, wr, su, code, out, err⟩ := r
  constructor
  · intro s h
    unfold runFormatter at h
    cases sp
    · simp at h
    · cases wa
      · simp at h
      · cases wr
        · simp at h
        · cases su
          · simp at h
          · cases out with
            | none => simp at h
            | some s0 =>
              simp at h
              simp [h]
  · intro hsp hwa hwr
    subst hsp hwa hwr
    constructor
    · intro hsu
      subst hsu
      rfl
    · intro hsu
      subst hsu
      rfl

/-- C8 witness for the amended claim. -/
theorem claim_c8_amended_witness :
    runFormatter ⟨true, true, true, false, 3, none, "boom"⟩ =
      Except.error ⟨Error.Formatter,
        ["Formatter exited with code " ++ toString (3 : Int), "boom"]⟩ ∧
    runFormatter ⟨true, true, true, true, 0, some "formatted-output", ""⟩ =
      Except.ok "formatted-output" := by
  constructor
  · exact ((claim_c8_amended ⟨true, true, true, false, 3, none, "boom"⟩).2
      rfl rfl rfl).1 rfl
  · exact ((claim_c8_amended ⟨true, true, true, true, 0, some "formatted-output", ""⟩).2
      rfl rfl rfl).2 rfl

/-- C10: with `always_write` off, when the destination cannot be read back
as text (missing file, I/O failure or invalid UTF-8 alike —
`fs::read_to_string` returning `Err`, `lib.rs:295`), the unchanged-content
comparison is bypassed without surfacing the read failure, and the computed
output is written to the destination. -/
theorem claim_c10_unreadable_dest (opts : Options) (env : Env) (p : Path) (n : String)
    (d : Path) (c : String)
    (haw : opts.alwaysWrite = false)
    (hco : computeOutput opts env p n = Except.ok (d, c))
    (hread : env.readExisting d = none)
    (hwr : (writeOutcome env d c).result = none) :
    processTemplate opts env p n = StepResult.wrote d c := by
  simp [processTemplate, hco, hread, hwr]

/-- C10 witness. -/
theorem claim_c10_witness :
    processTemplate opts0 env0 ["t.sql.tera"] "t.sql.tera" =
      StepResult.wrote ["t.sql"] "-- Autogenerated by sqlweld\n\nSELECT 1;\n" :=
  claim_c10_unreadable_dest opts0 env0 ["t.sql.tera"] "t.sql.tera" ["t.sql"]
    "-- Autogenerated by sqlweld\n\nSELECT 1;\n" rfl rfl rfl rfl

/-- A non-empty path is its directory part plus its filename. -/
theorem eq_dropLast_append_fileName {p : Path} (h : p ≠ []) :
    p = p.dropLast ++ [fileNameD p] := by
  conv_lhs => rw [← List.dropLast_append_getLast h]
  congr 1
  rw [fileNameD, List.getLast?_eq_getLast _ h]
  rfl

/-- C6 counterexample: the logical name of a Normal template keeps the
template suffix (`lib.rs:164` uses the relative path unchanged), while the
claim says the suffix is stripped. -/
theorem claim_c6_cex :
    templateType (pathStr ["a", "foo.sql.tera"]) = TemplateType.Normal ∧
    derivedName ["a", "foo.sql.tera"] = "a/foo.sql.tera" ∧
    ("a/foo.sql.tera" : String) ≠ "a/foo" := by decide

/-- C6 amended: the role is decided by filename suffixes in priority order
(macro, then partial, then normal as the fallback); for partial/macro roles
the logical name is the filename with the role suffix (which subsumes the
generic template suffix) stripped; for the Normal role the logical name is
the path relative to the input root with the template suffix NOT stripped. -/
theorem claim_c6_amended (p : Path) (hne : p ≠ []) :
    templateType (pathStr p) = roleByFilename p ∧
    (templateType (pathStr p) = TemplateType.Macro →
      ∃ base, fileNameD p = base ++ MACRO_SUFFIX ∧ derivedName p = base) ∧
    (templateType (pathStr p) = TemplateType.Partial →
      ∃ base, fileNameD p = base ++ PARTIAL_SUFFIX ∧ derivedName p = base) ∧
    (templateType (pathStr p) = TemplateType.Normal → derivedName p = pathStr p) := by
  have hm := @strEndsWith_pathStr MACRO_SUFFIX (by decide) p hne
  have hp := @strEndsWith_pathStr PARTIAL_SUFFIX (by decide) p hne
  refine ⟨?_, ?_, ?_, ?_⟩
  · unfold templateType roleByFilename
    rw [hm, hp]
  · intro h
    obtain ⟨base, hQ, heq⟩ := (strip_succeeds_of_role p hne).1 h
    exact ⟨base, heq, by simp [derivedName, h, stripSuffixD, hQ]⟩
  · intro h
    obtain ⟨base, hQ, heq⟩ := (strip_succeeds_of_role p hne).2 h
    exact ⟨base, heq, by simp [derivedName, h, stripSuffixD, hQ]⟩
  · intro h
    simp [derivedName, h]

/-- C6 witness for the amended claim, at a partial fragment in a
subdirectory. -/
theorem claim_c6_amended_witness :
    templateType (pathStr ["a", "p.partial.sql.tera"]) =
      roleByFilename ["a", "p.partial.sql.tera"] ∧
    fileNameD ["a", "p.partial.sql.tera"] = "p" ++ PARTIAL_SUFFIX ∧
    derivedName ["a", "p.partial.sql.tera"] = "p" := by
  have h := claim_c6_amended ["a", "p.partial.sql.tera"] (by decide)
  obtain ⟨base, hb, hd⟩ := h.2.2.1 (by decide)
  have hbase : base = "p" := by
    have h1 : base ++ PARTIAL_SUFFIX = "p" ++ PARTIAL_SUFFIX := by
      rw [← hb]
      rfl
    exact str_append_right_cancel h1
  subst hbase
  exact ⟨h.1, hb, hd⟩

/-- Every pending template registered by the classification loop stems from
a discovered path. -/
theorem classify_templates_paths (l : List Path) :
    ∀ (st st' : ClassifyState), classifyFrom st l = Except.ok st' →
    ∀ t ∈ st'.templates, t ∈ st.templates ∨ t.1 ∈ l := by
  induction l with
  | nil =>
    intro st st' h t ht
    cases h
    exact Or.inl ht
  | cons p rest ih =>
    intro st st' h t ht
    simp only [classifyFrom] at h
    by_cases htyp : templateType (pathStr p) = TemplateType.Normal
    · rw [if_pos htyp] at h
      rcases ih _ _ h t ht with hin | hin
      · rcases List.mem_append.mp hin with h' | h'
        · exact Or.inl h'
        · rcases List.mem_singleton.mp h' with rfl
          exact Or.inr (List.mem_cons_self _ _)
      · exact Or.inr (List.mem_cons_of_mem _ hin)
    · rw [if_neg htyp] at h
      cases hf : st.partials.find? fun e => e.1 == derivedName p with
      | some e =>
        rw [hf] at h
        cases h
      | none =>
        rw [hf] at h
        rcases ih _ _ h t ht with hin | hin
        · rcases List.mem_append.mp hin with h' | h'
          · exact Or.inl h'
          · rcases List.mem_singleton.mp h' with rfl
            exact Or.inr (List.mem_cons_self _ _)
        · exact Or.inr (List.mem_cons_of_mem _ hin)

/-- C9 counterexample: a tree with two conflicting partials and zero Normal
templates fails with `DuplicatePartial` instead of succeeding; "TemplateSet
empty after traversal" does not by itself guarantee success. -/
theorem claim_c9_cex :
    templateType (pathStr [("dup.partial.sql.tera" : String)]) ≠ TemplateType.Normal ∧
    templateType (pathStr ["d2", "dup.partial.sql.tera"]) ≠ TemplateType.Normal ∧
    build opts0 env0 [["dup.partial.sql.tera"], ["d2", "dup.partial.sql.tera"]] =
      ⟨[], some ⟨Error.DuplicatePartial,
        ["dup.partial.sql.tera", "d2/dup.partial.sql.tera"]⟩⟩ := by decide

/-- C9 amended: when traversal yields zero Normal templates, the names do
not collide (classification succeeds) and every registered source compiles,
the build returns success and produces no output files. -/
theorem claim_c9_amended (opts : Options) (env : Env) (files : List Path)
    (st : ClassifyState)
    (hcls : classifyFrom ⟨[], []⟩ files = Except.ok st)
    (hcomp : env.compileOk st.templates = true)
    (hnonormal : ∀ p ∈ files, templateType (pathStr p) ≠ TemplateType.Normal) :
    build opts env files = ⟨[], none⟩ := by
  rw [build_eq_of_classify_ok hcls]
  rw [if_neg (by simp [hcomp])]
  by_cases hempty : st.templates = []
  · rw [if_pos hempty]
  · rw [if_neg hempty]
    have hfil : st.templates.filter
        (fun t => templateType (pathStr t.1) = TemplateType.Normal) = [] := by
      rw [List.filter_eq_nil_iff]
      intro t ht
      rcases classify_templates_paths files _ _ hcls t ht with hin | hin
      · simp at hin
      · simp only [decide_eq_true_eq]
        exact hnonormal t.1 hin
    rw [hfil]
    rfl

/-- C9 witness for the amended claim: one well-formed partial, zero Normal
templates, successful no-op build. -/
theorem claim_c9_amended_witness :
    build opts0 env0 [["p.partial.sql.tera"]] = ⟨[], none⟩ :=
  claim_c9_amended opts0 env0 [["p.partial.sql.tera"]]
    ⟨[("p", ["p.partial.sql.tera"])], [(["p.partial.sql.tera"], "p")]⟩
    rfl rfl (by decide)

/-- C1: when two distinct partial/macro sources derive the same logical
name, the build fails with a `DuplicatePartial` error carrying both
conflicting paths — in discovery order, hence independent of which of the
two is discovered first — and no output file is written.  The uniqueness
hypothesis pins the reported pair to the given one; without it the error
still carries the paths of the first conflicting pair encountered. -/
theorem claim_c1_duplicate (files : List Path) (p1 p2 : Path)
    (hnd : files.Nodup) (h1 : p1 ∈ files) (h2 : p2 ∈ files) (hne : p1 ≠ p2)
    (ht1 : templateType (pathStr p1) ≠ TemplateType.Normal)
    (ht2 : templateType (pathStr p2) ≠ TemplateType.Normal)
    (hname : derivedName p1 = derivedName p2)
    (huniq : ∀ q1 ∈ files, ∀ q2 ∈ files, q1 ≠ q2 →
      templateType (pathStr q1) ≠ TemplateType.Normal →
      templateType (pathStr q2) ≠ TemplateType.Normal →
      derivedName q1 = derivedName q2 →
      (q1 = p1 ∧ q2 = p2) ∨ (q1 = p2 ∧ q2 = p1)) :
    ∀ (opts : Options) (env : Env),
      (build opts env files).writes = [] ∧
      ((build opts env files).error =
          some ⟨Error.DuplicatePartial, [pathStr p1, pathStr p2]⟩ ∨
       (build opts env files).error =
          some ⟨Error.DuplicatePartial, [pathStr p2, pathStr p1]⟩) := by
  have hex : ∃ ec, classifyFrom ⟨[], []⟩ files = Except.error ec := by
    obtain ⟨s, t, hst⟩ := List.append_of_mem h1
    subst hst
    rcases List.mem_append.mp h2 with hs | ht'
    · obtain ⟨u, v, huv⟩ := List.append_of_mem hs
      subst huv
      have hassoc : (u ++ p2 :: v) ++ p1 :: t = u ++ p2 :: (v ++ p1 :: t) := by simp
      rw [hassoc]
      exact classify_error_exists u v t p2 p1 ht2 ht1 hname.symm
    · rcases List.mem_cons.mp ht' with heq | htt
      · exact absurd heq.symm hne
      · obtain ⟨u, v, huv⟩ := List.append_of_mem htt
        subst huv
        exact classify_error_exists s u v p1 p2 ht1 ht2 hname
  obtain ⟨ec, herr⟩ := hex
  obtain ⟨s1, s2, s3, s4, s5, s6⟩ := classify_error_sound files [] ⟨[], []⟩
    (by intro e he; simp at he) (by simpa using hnd) ec herr
  have hec1 : ec.1 ∈ files := by simpa using s4
  have hec2 : ec.2 ∈ files := s5
  intro opts env
  rw [build_eq_of_classify_error herr]
  refine ⟨rfl, ?_⟩
  rcases huniq ec.1 hec1 ec.2 hec2 s6 s1 s2 s3 with ⟨ha, hb⟩ | ⟨ha, hb⟩
  · left
    rw [ha, hb]
  · right
    rw [ha, hb]

/-- C1 witness: two conflicting partials in different directories. -/
theorem claim_c1_witness :
    (build opts0 env0 [["a", "p.partial.sql.tera"], ["b", "p.partial.sql.tera"]]).writes
      = [] ∧
    ((build opts0 env0 [["a", "p.partial.sql.tera"], ["b", "p.partial.sql.tera"]]).error =
        some ⟨Error.DuplicatePartial,
          [pathStr ["a", "p.partial.sql.tera"], pathStr ["b", "p.partial.sql.tera"]]⟩ ∨
     (build opts0 env0 [["a", "p.partial.sql.tera"], ["b", "p.partial.sql.tera"]]).error =
        some ⟨Error.DuplicatePartial,
          [pathStr ["b", "p.partial.sql.tera"], pathStr ["a", "p.partial.sql.tera"]]⟩) :=
  claim_c1_duplicate [["a", "p.partial.sql.tera"], ["b", "p.partial.sql.tera"]]
    ["a", "p.partial.sql.tera"] ["b", "p.partial.sql.tera"]
    (by decide) (by decide) (by decide) (by decide) (by decide) (by decide) (by decide)
    (by decide) opts0 env0

/-- C3 counterexample: with an explicit output root, two distinct Normal
templates sharing a filename in different directories are flattened to the
same destination and both written there (`lib.rs:232-233`). -/
theorem claim_c3_cex :
    templateType (pathStr ["a", "foo.sql.tera"]) = TemplateType.Normal ∧
    templateType (pathStr ["b", "foo.sql.tera"]) = TemplateType.Normal ∧
    (["a", "foo.sql.tera"] : Path) ≠ ["b", "foo.sql.tera"] ∧
    (build opts3 env0 [["a", "foo.sql.tera"], ["b", "foo.sql.tera"]]).error = none ∧
    (build opts3 env0 [["a", "foo.sql.tera"], ["b", "foo.sql.tera"]]).writes.map
      Prod.fst = [["out", "foo.sql"], ["out", "foo.sql"]] := by decide

/-- C3 amended: without an explicit output root, distinct Normal templates
always get distinct destinations; with an explicit output root, every
destination lies flattened in the root and two destinations coincide
exactly when the derived output filenames coincide — so templates sharing a
filename across directories do collide. -/
theorem claim_c3_amended (opts : Options) (env : Env) (p q : Path) (np nq : String)
    (d1 d2 : Path) (c1 c2 : String)
    (hp : computeOutput opts env p np = Except.ok (d1, c1))
    (hq : computeOutput opts env q nq = Except.ok (d2, c2)) :
    (opts.output = none → p ≠ q → d1 ≠ d2) ∧
    (∀ root, opts.output = some root →
      ∃ f1 f2, d1 = root ++ [f1] ∧ d2 = root ++ [f2] ∧ (d1 = d2 ↔ f1 = f2)) := by
  obtain ⟨bp, hbp, hdp⟩ := computeOutput_dest hp
  obtain ⟨bq, hbq, hdq⟩ := computeOutput_dest hq
  constructor
  · intro hroot hpq hcontra
    rw [hdp, hdq, hroot] at hcontra
    unfold outputPath at hcontra
    have hlen : ([bp ++ "." ++ opts.extension.getD "sql"] : List String).length =
        ([bq ++ "." ++ opts.extension.getD "sql"] : List String).length := rfl
    obtain ⟨hdl, hfl⟩ := List.append_inj' hcontra hlen
    have hfeq : bp ++ "." ++ opts.extension.getD "sql" =
        bq ++ "." ++ opts.extension.getD "sql" := by
      simpa using hfl
    have hbase : bp = bq :=
      str_append_right_cancel (str_append_right_cancel hfeq)
    have hfname : fileNameD p = fileNameD q := by
      rw [stripSuffixQ_eq_some.mp hbp, stripSuffixQ_eq_some.mp hbq, hbase]
    have hpq' : p = q := by
      rw [eq_dropLast_append_fileName (ne_nil_of_strip hbp),
        eq_dropLast_append_fileName (ne_nil_of_strip hbq), hdl, hfname]
    exact hpq hpq'
  · intro root hroot
    rw [hroot] at hdp hdq
    refine ⟨bp ++ "." ++ opts.extension.getD "sql", bq ++ "." ++ opts.extension.getD "sql",
      hdp, hdq, ?_, ?_⟩
    · intro h12
      rw [hdp, hdq] at h12
      have hcancel := List.append_cancel_left h12
      simpa using hcancel
    · intro hf
      rw [hdp, hdq, hf]
      rfl

/-- C3 amended witness: two templates in different directories with
different filenames, default (no root) placement: distinct destinations. -/
theorem claim_c3_amended_witness :
    (["a", "x.sql"] : Path) ≠ ["b", "y.sql"] := by
  have h := claim_c3_amended opts0 env0 ["a", "x.sql.tera"] ["b", "y.sql.tera"]
    "n1" "n2" ["a", "x.sql"] ["b", "y.sql"]
    "-- Autogenerated by sqlweld\n\nSELECT 1;\n"
    "-- Autogenerated by sqlweld\n\nSELECT 1;\n" rfl rfl
  exact h.1 rfl (by decide)

/-- C7: with `always_write` off, rerunning the pipeline on identical inputs
over the filesystem produced by a successful first run (whose normal
templates write to pairwise distinct destinations) writes nothing and
succeeds: every unchanged destination is read back, compared byte-for-byte
and skipped, so the outputs stay byte-identical. -/
theorem claim_c7_idempotent (opts : Options) (env : Env) (files : List Path)
    (W : List (Path × String))
    (haw : opts.alwaysWrite = false)
    (hrun : build opts env files = ⟨W, none⟩)
    (hnd : ((normalsOf files).map fun t => (processTemplate opts env t.1 t.2).destQ).Nodup) :
    build opts { env with readExisting := overlay W env.readExisting } files = ⟨[], none⟩ := by
  cases hcls : classifyFrom ⟨[], []⟩ files with
  | error ec =>
    rw [build_eq_of_classify_error hcls] at hrun
    simp at hrun
  | ok st =>
    rw [build_eq_of_classify_ok hcls] at hrun
    rw [build_eq_of_classify_ok hcls]
    have hcompeq : ({ env with readExisting := overlay W env.readExisting } : Env).compileOk
        = env.compileOk := rfl
    rw [hcompeq]
    by_cases hcomp : env.compileOk st.templates = false
    · rw [if_pos hcomp] at hrun
      simp at hrun
    · rw [if_neg hcomp] at hrun
      rw [if_neg hcomp]
      by_cases hempty : st.templates = []
      · rw [if_pos hempty]
      · rw [if_neg hempty] at hrun
        rw [if_neg hempty]
        have hnormals : normalsOf files = st.templates.filter
            (fun t => templateType (pathStr t.1) = TemplateType.Normal) := by
          unfold normalsOf
          rw [hcls]
        rw [← hnormals] at hrun ⊢
        obtain ⟨hall, hW⟩ := runTemplates_ok_inversion opts env (normalsOf files) W hrun
        apply runTemplates_all_skipped
        intro t ht
        obtain ⟨d, c, hs⟩ := hall t ht
        refine ⟨d, c, ?_⟩
        have hfind := writes_find opts env (normalsOf files) hnd t ht d c
        rcases hs with hs | hs
        · have hfound : (W.find? fun w => w.1 == d) = some (d, c) := by
            rw [hW]
            exact hfind.1 hs
          refine processTemplate_rerun_skips (Or.inl hs) haw ?_
          unfold overlay
          rw [hfound]
        · have hnone : (W.find? fun w => w.1 == d) = none := by
            rw [hW]
            exact hfind.2 hs
          refine processTemplate_rerun_skips (Or.inr hs) haw ?_
          unfold overlay
          rw [hnone]
          exact (skipped_inversion hs).2

/-- C7 witness: one template written by the first run, skipped by the
second. -/
theorem claim_c7_witness :
    build opts0
      { env0 with readExisting :=
          (overlay [(["t.sql"], "-- Autogenerated by sqlweld\n\nSELECT 1;\n")]
            env0.readExisting) }
      [["t.sql.tera"]] = ⟨[], none⟩ :=
  claim_c7_idempotent opts0 env0 [["t.sql.tera"]]
    [(["t.sql"], "-- Autogenerated by sqlweld\n\nSELECT 1;\n")]
    rfl rfl (by decide)

/-- C4 witness: the empty header omits block and separator; the two-line
header emits the joined block, a blank line, then the body. -/
theorem claim_c4_witness :
    withHeader "" "BODY" = "BODY" ∧
    withHeader "line one\r\nline two" "BODY" =
      joinLines (survivingLines "line one\r\nline two") ++ "\n\n" ++ "BODY" := by
  constructor
  · exact (claim_c4_header "" "BODY").1 rfl
  · exact (claim_c4_header "line one\r\nline two" "BODY").2.1 (by decide)

end Sqlweld
